import Mathlib

/-!
# Verification of the atlassian-mcp core logic

Shallow embedding of the session cache, credential/transport resolution,
site-address normalization and response-error handling of the
`atlassian-mcp` Go repository, together with theorems settling the
specification claims about them.

Go strings are modelled as Lean `String` (lists of characters); the
standard-library helpers used by the source (`strings.TrimSpace`,
`strings.TrimRight`, `strings.HasPrefix`, `strings.HasSuffix`,
`strings.TrimSuffix`, `encoding/base64`, a scheme://host/path fragment of
`net/url`, and the part of `encoding/json` exercised by the error decoder)
are embedded explicitly below.
-/

/-- ASCII whitespace recognised by Go's `unicode.IsSpace` (the sources only
ever trim ASCII input; the Unicode-only space code points are not modelled). -/
def isGoSpace (c : Char) : Bool :=
  c == ' ' || c == '\t' || c == '\n' || c == '\r' || c == '\x0b' || c == '\x0c'

/-- `strings.TrimSpace`: drop leading and trailing whitespace. -/
def goTrimSpace (s : String) : String :=
  ⟨((s.data.dropWhile isGoSpace).reverse.dropWhile isGoSpace).reverse⟩

/-- `strings.TrimRight(s, "/")`: drop all trailing `'/'` characters. -/
def goTrimRightSlash (s : String) : String :=
  ⟨(s.data.reverse.dropWhile (· == '/')).reverse⟩

/-- `strings.HasPrefix`. -/
def goHasPrefix (s pre : String) : Bool :=
  pre.data.isPrefixOf s.data

/-- `strings.HasSuffix`. -/
def goHasSuffix (s suf : String) : Bool :=
  suf.data.isSuffixOf s.data

/-- `strings.TrimSuffix`: remove `suf` once if present. -/
def goTrimSuffix (s suf : String) : String :=
  if goHasSuffix s suf then ⟨s.data.take (s.data.length - suf.data.length)⟩ else s

/-- `true` iff the string's last character is not Go whitespace (vacuously
`true` for the empty string). -/
def noTrailingSpace (s : String) : Bool :=
  match s.data.reverse.head? with
  | some c => !isGoSpace c
  | none => true

/-- `ensureHTTPS` from `cmd/server/main.go`: trim whitespace; empty input
stays empty; an explicit `http://`/`https://` scheme is preserved and only
trailing slashes are stripped; otherwise `https://` is prepended after
stripping trailing slashes. -/
def ensureHTTPS (site : String) : String :=
  let trimmed := goTrimSpace site
  if trimmed = "" then ""
  else if goHasPrefix trimmed "http://" || goHasPrefix trimmed "https://" then
    goTrimRightSlash trimmed
  else
    "https://" ++ goTrimRightSlash trimmed

/-- `true` iff the string's last character is not `'/'` (vacuously `true`
for the empty string). -/
def noTrailingSlash (s : String) : Bool :=
  match s.data.reverse.head? with
  | some c => !(c == '/')
  | none => true

/-- `true` iff the string's first character is not Go whitespace (vacuously
`true` for the empty string). -/
def noLeadingSpace (s : String) : Bool :=
  match s.data.head? with
  | some c => !isGoSpace c
  | none => true

theorem dropWhile_self_of_head_neg (p : α → Bool) (l : List α)
    (h : ∀ c, l.head? = some c → p c = false) : l.dropWhile p = l := by
  cases l with
  | nil => rfl
  | cons c t => exact List.dropWhile_cons_of_neg (by simp [h c rfl])

theorem dropWhile_idem (p : α → Bool) (l : List α) :
    (l.dropWhile p).dropWhile p = l.dropWhile p := by
  apply dropWhile_self_of_head_neg
  intro c hc
  have h := List.head?_dropWhile_not p l
  rw [hc] at h
  exact h

theorem goTrimRightSlash_data_reverse (s : String) :
    (goTrimRightSlash s).data.reverse = s.data.reverse.dropWhile (· == '/') := by
  simp [goTrimRightSlash]

theorem goTrimRightSlash_idem (s : String) :
    goTrimRightSlash (goTrimRightSlash s) = goTrimRightSlash s := by
  apply String.ext
  have h1 := goTrimRightSlash_data_reverse s
  have h2 := goTrimRightSlash_data_reverse (goTrimRightSlash s)
  have h3 : (goTrimRightSlash (goTrimRightSlash s)).data.reverse
      = (goTrimRightSlash s).data.reverse := by
    rw [h2, h1, dropWhile_idem]
  have := congrArg List.reverse h3
  simpa using this

theorem goTrimRightSlash_noTrailingSlash (s : String) :
    noTrailingSlash (goTrimRightSlash s) = true := by
  unfold noTrailingSlash
  rw [goTrimRightSlash_data_reverse]
  have h := List.head?_dropWhile_not (· == '/') s.data.reverse
  cases hc : (s.data.reverse.dropWhile (· == '/')).head? with
  | none => simp
  | some c =>
    rw [hc] at h
    simp [h]

theorem goTrimRightSlash_eq_self (s : String) (h : noTrailingSlash s = true) :
    goTrimRightSlash s = s := by
  apply String.ext
  have hdw : s.data.reverse.dropWhile (· == '/') = s.data.reverse := by
    apply dropWhile_self_of_head_neg
    intro c hc
    unfold noTrailingSlash at h
    rw [hc] at h
    simpa using h
  have h3 := goTrimRightSlash_data_reverse s
  rw [hdw] at h3
  have := congrArg List.reverse h3
  simpa using this

theorem goTrimSpace_eq_self (s : String)
    (h1 : noLeadingSpace s = true) (h2 : noTrailingSpace s = true) :
    goTrimSpace s = s := by
  apply String.ext
  show ((s.data.dropWhile isGoSpace).reverse.dropWhile isGoSpace).reverse = s.data
  have e1 : s.data.dropWhile isGoSpace = s.data := by
    apply dropWhile_self_of_head_neg
    intro c hc
    unfold noLeadingSpace at h1
    rw [hc] at h1
    simpa using h1
  rw [e1]
  have e2 : s.data.reverse.dropWhile isGoSpace = s.data.reverse := by
    apply dropWhile_self_of_head_neg
    intro c hc
    unfold noTrailingSpace at h2
    rw [hc] at h2
    simpa using h2
  rw [e2, List.reverse_reverse]

theorem goHasPrefix_head {s pre : String} {c : Char} {rest : List Char}
    (h : goHasPrefix s pre = true) (hpre : pre.data = c :: rest) :
    ∃ t, s.data = c :: t := by
  unfold goHasPrefix at h
  rw [hpre] at h
  cases hs : s.data with
  | nil => rw [hs] at h; simp [List.isPrefixOf] at h
  | cons b t =>
    rw [hs] at h
    simp [List.isPrefixOf] at h
    exact ⟨t, by rw [h.1]⟩

theorem noLeadingSpace_of_head {s : String} {c : Char} {t : List Char}
    (ht : s.data = c :: t) (hc : isGoSpace c = false) : noLeadingSpace s = true := by
  unfold noLeadingSpace
  rw [ht]
  simp [hc]

theorem noLeadingSpace_of_http {s : String}
    (h : (goHasPrefix s "http://" || goHasPrefix s "https://") = true) :
    noLeadingSpace s = true := by
  rcases Bool.or_eq_true_iff.mp h with h1 | h1
  · obtain ⟨t, ht⟩ := goHasPrefix_head h1 rfl
    exact noLeadingSpace_of_head ht (by decide)
  · obtain ⟨t, ht⟩ := goHasPrefix_head h1 rfl
    exact noLeadingSpace_of_head ht (by decide)

theorem ensureHTTPS_fixpoint (s : String)
    (hpre : (goHasPrefix s "http://" || goHasPrefix s "https://") = true)
    (hts : noTrailingSlash s = true)
    (hsp2 : noTrailingSpace s = true) :
    ensureHTTPS s = s := by
  have hsp1 : noLeadingSpace s = true := noLeadingSpace_of_http hpre
  have hne : s ≠ "" := by
    intro h0
    rw [h0] at hpre
    exact absurd hpre (by decide)
  unfold ensureHTTPS
  rw [goTrimSpace_eq_self s hsp1 hsp2]
  simp only [if_neg hne, hpre, if_pos]
  exact goTrimRightSlash_eq_self s hts

theorem reverse_head_append (pre s : String) (h : s.data ≠ []) :
    (pre ++ s).data.reverse.head? = s.data.reverse.head? := by
  rw [String.data_append, List.reverse_append]
  cases hs : s.data.reverse with
  | nil =>
    exfalso
    apply h
    have := congrArg List.reverse hs
    simpa using this
  | cons c t => simp

theorem noTrailingSlash_append (pre s : String) (h : s.data ≠ []) :
    noTrailingSlash (pre ++ s) = noTrailingSlash s := by
  unfold noTrailingSlash
  rw [reverse_head_append pre s h]

theorem noTrailingSpace_append (pre s : String) (h : s.data ≠ []) :
    noTrailingSpace (pre ++ s) = noTrailingSpace s := by
  unfold noTrailingSpace
  rw [reverse_head_append pre s h]

theorem goHasPrefix_append (pre s : String) : goHasPrefix (pre ++ s) pre = true := by
  unfold goHasPrefix
  rw [String.data_append]
  exact List.isPrefixOf_iff_prefix.mpr (List.prefix_append _ _)

theorem data_ne_nil_of_ne_empty {s : String} (h : s ≠ "") : s.data ≠ [] := by
  intro h0
  apply h
  exact String.ext h0

/-- C6 (amended): `ensureHTTPS` is idempotent for every non-empty input whose
trimmed form is either all-whitespace, or leaves (after stripping trailing
slashes) a non-empty residue with no trailing whitespace whose scheme prefix,
when one was present, survives the slash-stripping. The unrestricted claim is
refuted by `C6_counterexample`. -/
theorem C6_scheme_idempotence_amended (x : String) (_hx : x ≠ "")
    (h : goTrimSpace x = "" ∨
      (goTrimRightSlash (goTrimSpace x) ≠ "" ∧
       noTrailingSpace (goTrimRightSlash (goTrimSpace x)) = true ∧
       ((goHasPrefix (goTrimSpace x) "http://" || goHasPrefix (goTrimSpace x) "https://") = true →
        (goHasPrefix (goTrimRightSlash (goTrimSpace x)) "http://" ||
         goHasPrefix (goTrimRightSlash (goTrimSpace x)) "https://") = true))) :
    ensureHTTPS (ensureHTTPS x) = ensureHTTPS x := by
  rcases h with ht | ⟨hs, hlast, hpres⟩
  · have e1 : ensureHTTPS x = "" := by
      unfold ensureHTTPS
      simp [ht]
    rw [e1]
    rfl
  · have htne : goTrimSpace x ≠ "" := by
      intro h0
      apply hs
      rw [h0]
      rfl
    by_cases hp : (goHasPrefix (goTrimSpace x) "http://" ||
        goHasPrefix (goTrimSpace x) "https://") = true
    · have e1 : ensureHTTPS x = goTrimRightSlash (goTrimSpace x) := by
        unfold ensureHTTPS
        simp only [if_neg htne, hp, if_pos]
      rw [e1]
      exact ensureHTTPS_fixpoint _ (hpres hp)
        (goTrimRightSlash_noTrailingSlash _) hlast
    · have e1 : ensureHTTPS x = "https://" ++ goTrimRightSlash (goTrimSpace x) := by
        unfold ensureHTTPS
        simp only [if_neg htne]
        rw [if_neg (by simpa using hp)]
      rw [e1]
      have hdne : (goTrimRightSlash (goTrimSpace x)).data ≠ [] :=
        data_ne_nil_of_ne_empty hs
      apply ensureHTTPS_fixpoint
      · apply Bool.or_eq_true_iff.mpr
        right
        exact goHasPrefix_append "https://" _
      · rw [noTrailingSlash_append _ _ hdne]
        exact goTrimRightSlash_noTrailingSlash _
      · rw [noTrailingSpace_append _ _ hdne]
        exact hlast

/-- Witness for C6: the amended idempotence theorem applied at the concrete
input `"https://example.atlassian.net/"`. -/
theorem C6_witness :
    ensureHTTPS (ensureHTTPS "https://example.atlassian.net/") =
      ensureHTTPS "https://example.atlassian.net/" := by
  apply C6_scheme_idempotence_amended "https://example.atlassian.net/" (by decide)
  right
  refine ⟨by decide, by decide, fun _ => by decide⟩

/-- C6 counterexample: `"/"` is non-empty, yet
`ensureHTTPS "/" = "https://"` while `ensureHTTPS "https://" = "https:"`,
so `ensureHTTPS` is not idempotent at `"/"`. -/
theorem C6_counterexample :
    ("/" : String) ≠ "" ∧ ensureHTTPS (ensureHTTPS "/") ≠ ensureHTTPS "/" := by
  constructor
  · decide
  · decide

/-! ## Site normalization (`internal/jira/client.go`, `internal/confluence/client.go`,
`internal/atlassian/httpclient.go`)

`net/url` is modelled for the `scheme://host/path` addresses the normalizers
receive: `urlParse` splits off the scheme at the first `"://"`, takes the host
up to the next `'/'`, and keeps the remainder (including the leading slash) as
the path; `urlString` reassembles the three parts. Query, fragment, userinfo
and percent-escaping are not used by any input considered here. -/

structure UrlParts where
  scheme : String
  host : String
  path : String
deriving DecidableEq, Repr

def findSchemeSep : List Char → Option (List Char × List Char)
  | [] => none
  | ':' :: '/' :: '/' :: rest => some ([], rest)
  | c :: cs => (findSchemeSep cs).map (fun p => (c :: p.1, p.2))

def splitAtSlash : List Char → List Char × List Char
  | [] => ([], [])
  | c :: cs =>
    if c = '/' then ([], c :: cs)
    else
      let p := splitAtSlash cs
      (c :: p.1, p.2)

def urlParse (s : String) : Option UrlParts :=
  match findSchemeSep s.data with
  | none => none
  | some (scheme, rest) =>
    let hp := splitAtSlash rest
    some ⟨⟨scheme⟩, ⟨hp.1⟩, ⟨hp.2⟩⟩

def urlString (u : UrlParts) : String :=
  u.scheme ++ "://" ++ u.host ++ u.path

/-- The suffix loop of `jira.normalizeSite`: `for ... { if HasSuffix { ...;
break } }` — the `break` makes it stop at the first matching suffix. -/
def stripFirstMatch : List String → String → String
  | [], p => p
  | suf :: rest, p =>
    if goHasSuffix p suf then goTrimRightSlash (goTrimSuffix p suf)
    else stripFirstMatch rest p

/-- The suffix loop of `confluence.normalizeSite`: same body but WITHOUT a
`break`, so every suffix in the list is tried in order and several can be
stripped in sequence. -/
def stripAllInOrder : List String → String → String
  | [], p => p
  | suf :: rest, p =>
    stripAllInOrder rest
      (if goHasSuffix p suf then goTrimRightSlash (goTrimSuffix p suf) else p)

/-- `if parsed.Path != "" && !strings.HasSuffix(parsed.Path, "/") {
parsed.Path += "/" }` — both normalizers append a trailing slash to a
non-empty path. -/
def addTrailingSlash (p : String) : String :=
  if p = "" then p
  else if goHasSuffix p "/" then p
  else p ++ "/"

def jiraSuffixes : List String := ["/rest/api/3", "/rest/api/2"]

def confluenceSuffixes : List String := ["/wiki/rest/api", "/rest/api", "/wiki"]

def jiraNormalizedPath (p : String) : String :=
  addTrailingSlash (stripFirstMatch jiraSuffixes (goTrimRightSlash p))

def confluenceNormalizedPath (p : String) : String :=
  addTrailingSlash (stripAllInOrder confluenceSuffixes (goTrimRightSlash p))

/-- `normalizeSite` from `internal/jira/client.go`. -/
def jiraNormalizeSite (site : String) : Except String String :=
  let trimmed := goTrimSpace site
  if trimmed = "" then .error "jira: site is required to construct client"
  else
    match urlParse trimmed with
    | none => .error "jira: parse site"
    | some u => .ok (urlString {u with path := jiraNormalizedPath u.path})

/-- `normalizeSite` from `internal/confluence/client.go`. -/
def confluenceNormalizeSite (site : String) : Except String String :=
  let trimmed := goTrimSpace site
  if trimmed = "" then .error "confluence: site is required to construct client"
  else
    match urlParse trimmed with
    | none => .error "confluence: parse site"
    | some u => .ok (urlString {u with path := confluenceNormalizedPath u.path})

/-- Base-URL normalization performed by `NewHTTPClient` in
`internal/atlassian/httpclient.go`: prepend `https://` when no scheme is
present, then trim trailing slashes; the path itself is untouched. -/
def httpClientBaseURL (baseURL : String) : String :=
  goTrimRightSlash
    (if goHasPrefix baseURL "http://" || goHasPrefix baseURL "https://" then baseURL
     else "https://" ++ baseURL)

theorem noTrailingSlash_of_not_hasSuffix {p : String} (h : goHasSuffix p "/" = false) :
    noTrailingSlash p = true := by
  unfold goHasSuffix at h
  unfold noTrailingSlash
  cases hr : p.data.reverse with
  | nil => simp
  | cons c t =>
    rw [List.isSuffixOf, hr] at h
    simp [List.isPrefixOf] at h
    simp [beq_eq_false_iff_ne]
    intro hc
    exact h (by rw [hc])

theorem stripFirstMatch_no_match : ∀ (sufs : List String) (p : String),
    (sufs.all (fun suf => !goHasSuffix p suf)) = true → stripFirstMatch sufs p = p
  | [], _, _ => rfl
  | suf :: rest, p, h => by
    rw [List.all_cons] at h
    have h1 : goHasSuffix p suf = false := by
      have := (Bool.and_eq_true _ _).mp h |>.1
      simpa using this
    have h2 := (Bool.and_eq_true _ _).mp h |>.2
    rw [stripFirstMatch, if_neg (by simp [h1])]
    exact stripFirstMatch_no_match rest p h2

/-- C4 counterexample: for the raw address
`"https://example.com/rest/api/wiki/rest/api"` the Confluence normalizer
strips TWO suffixes (`"/wiki/rest/api"` and then `"/rest/api"`), returning
`"https://example.com"`, whereas stripping only the first matching suffix
(which is what the claim states) leaves the path `"/rest/api"`, i.e. would
produce `"https://example.com/rest/api/"` — a different address. The
`break`-less loop in `confluence.normalizeSite` attempts further suffixes
after a match. -/
theorem C4_counterexample :
    confluenceNormalizeSite "https://example.com/rest/api/wiki/rest/api"
      = .ok "https://example.com" ∧
    stripFirstMatch confluenceSuffixes
      (goTrimRightSlash "/rest/api/wiki/rest/api") = "/rest/api" ∧
    ("https://example.com" : String) ≠ "https://example.com/rest/api/" :=
  ⟨rfl, by decide, by decide⟩

/-- C4 (amended): the JIRA normalizer does stop at the first matching suffix
— once a suffix matches, the remaining suffix list is irrelevant — and both
concrete examples of the claim evaluate as stated; the Confluence normalizer,
however, tries every suffix in order (see `C4_counterexample`). -/
theorem C4_suffix_first_match_amended :
    (∀ (suf : String) (rest rest' : List String) (p : String),
      goHasSuffix p suf = true →
      stripFirstMatch (suf :: rest) p = stripFirstMatch (suf :: rest') p) ∧
    jiraNormalizeSite "https://example.atlassian.net/rest/api/3"
      = .ok "https://example.atlassian.net" ∧
    confluenceNormalizeSite "https://example.atlassian.net/wiki/rest/api"
      = .ok "https://example.atlassian.net" ∧
    (∀ p, jiraNormalizedPath p
      = addTrailingSlash (stripFirstMatch jiraSuffixes (goTrimRightSlash p))) := by
  refine ⟨?_, rfl, rfl, fun p => rfl⟩
  intro suf rest rest' p h
  rw [stripFirstMatch, stripFirstMatch, if_pos (by simp [h]), if_pos (by simp [h])]

/-- Witness for C4: the first-match independence applied at a concrete path
and two different tails of the suffix list. -/
theorem C4_witness :
    stripFirstMatch ["/rest/api/3", "/rest/api/2"] "/a/rest/api/3"
      = stripFirstMatch ["/rest/api/3", "/a"] "/a/rest/api/3" :=
  C4_suffix_first_match_amended.1 "/rest/api/3" ["/rest/api/2"] ["/a"]
    "/a/rest/api/3" (by decide)

/-- C5 counterexample: the JIRA normalizer maps
`"https://example.com/jira"` to `"https://example.com/jira/"` — the context
path is preserved but a trailing slash is APPENDED (the `parsed.Path += "/"`
step), so the result is not exactly `"https://example.com/jira"` as claimed. -/
theorem C5_counterexample :
    jiraNormalizeSite "https://example.com/jira" = .ok "https://example.com/jira/" ∧
    ("https://example.com/jira/" : String) ≠ "https://example.com/jira" :=
  ⟨rfl, by decide⟩

/-- C5 (amended): a path matching no known suffix is preserved, but the JIRA
normalizer appends a trailing slash to every non-empty path, giving
`"https://example.com/jira/"`; the `NewHTTPClient` base-URL normalization,
by contrast, only trims trailing slashes and yields exactly
`"https://example.com/jira"`. -/
theorem C5_nonmatching_path_amended :
    (∀ p : String, p ≠ "" → goHasSuffix p "/" = false →
      (jiraSuffixes.all (fun suf => !goHasSuffix p suf)) = true →
      jiraNormalizedPath p = p ++ "/") ∧
    jiraNormalizeSite "https://example.com/jira" = .ok "https://example.com/jira/" ∧
    httpClientBaseURL "https://example.com/jira" = "https://example.com/jira" := by
  refine ⟨?_, rfl, by decide⟩
  intro p hne hslash hmatch
  unfold jiraNormalizedPath
  rw [goTrimRightSlash_eq_self p (noTrailingSlash_of_not_hasSuffix hslash)]
  rw [stripFirstMatch_no_match _ _ hmatch]
  unfold addTrailingSlash
  rw [if_neg hne, if_neg (by simp [hslash])]

/-- Witness for C5: the amended statement applied at the concrete path
`"/jira"`. -/
theorem C5_witness : jiraNormalizedPath "/jira" = "/jira" ++ "/" :=
  C5_nonmatching_path_amended.1 "/jira" (by decide) (by decide) (by decide)

/-! ## Credential resolution (`internal/auth/transport.go`,
`internal/jira/client.go`, `internal/atlassian/httpclient.go`)

`encoding/base64.StdEncoding` and Go's UTF-8 string-to-bytes conversion are
embedded below; bytes are plain `Nat` values < 256. -/

def base64Alphabet : List Char :=
  "ABCDEFGHIJKLMNOPQRSTUVWXYZabcdefghijklmnopqrstuvwxyz0123456789+/".data

def b64Char (n : Nat) : Char := base64Alphabet.getD n 'A'

def base64Encode : List Nat → List Char
  | [] => []
  | [a] => [b64Char (a / 4), b64Char (a % 4 * 16), '=', '=']
  | [a, b] => [b64Char (a / 4), b64Char (a % 4 * 16 + b / 16), b64Char (b % 16 * 4), '=']
  | a :: b :: c :: rest =>
    b64Char (a / 4) :: b64Char (a % 4 * 16 + b / 16) ::
      b64Char (b % 16 * 4 + c / 64) :: b64Char (c % 64) :: base64Encode rest

def utf8EncodeChar (n : Nat) : List Nat :=
  if n < 128 then [n]
  else if n < 2048 then [192 + n / 64, 128 + n % 64]
  else if n < 65536 then [224 + n / 4096, 128 + n / 64 % 64, 128 + n % 64]
  else [240 + n / 262144, 128 + n / 4096 % 64, 128 + n / 64 % 64, 128 + n % 64]

def utf8Bytes (s : String) : List Nat :=
  (s.data.map (fun c => utf8EncodeChar c.toNat)).flatten

def goBase64 (s : String) : String := ⟨base64Encode (utf8Bytes s)⟩

/-- `config.ServiceCredentials` (`internal/config/config.go`). -/
structure ServiceCredentials where
  email : String
  apiToken : String
  oauthToken : String
deriving DecidableEq, Repr

/-- `Transport.initialize` from `internal/auth/transport.go`: the body of the
`sync.Once`; note it tests the RAW fields (no trimming) and prefers the
bearer token. Returns the computed Authorization header or the
insufficient-credentials error. -/
def transportInitialize (c : ServiceCredentials) : Except String String :=
  if c.oauthToken ≠ "" then .ok ("Bearer " ++ c.oauthToken)
  else if c.email ≠ "" ∧ c.apiToken ≠ "" then
    .ok ("Basic " ++ goBase64 (c.email ++ ":" ++ c.apiToken))
  else .error "auth: insufficient credentials"

inductive AuthStrategy where
  | bearer (token : String)
  | basic (email : String) (apiToken : String)
deriving DecidableEq, Repr

/-- The credential `switch` of `jira.NewClient` (`internal/jira/client.go`
lines 62-69): trimmed fields decide the strategy, raw fields are stored. -/
def jiraSelectAuth (c : ServiceCredentials) : Except String AuthStrategy :=
  if goTrimSpace c.oauthToken ≠ "" then .ok (.bearer c.oauthToken)
  else if goTrimSpace c.email ≠ "" ∧ goTrimSpace c.apiToken ≠ "" then
    .ok (.basic c.email c.apiToken)
  else .error "jira: insufficient credentials for client"

structure HTTPClientModel where
  baseURL : String
  email : String
  apiToken : String
  oauthToken : String
deriving DecidableEq, Repr

/-- `NewHTTPClient` from `internal/atlassian/httpclient.go`: validates the
base URL and the credentials (trimmed) at construction time. -/
def newHTTPClient (baseURL : String) (c : ServiceCredentials) :
    Except String HTTPClientModel :=
  if baseURL = "" then .error "atlassian: base URL is required"
  else if goTrimSpace c.oauthToken ≠ "" ∨
      (goTrimSpace c.email ≠ "" ∧ goTrimSpace c.apiToken ≠ "") then
    .ok ⟨httpClientBaseURL baseURL, c.email, c.apiToken, c.oauthToken⟩
  else .error "atlassian: credentials required (either oauth_token or email+api_token)"

/-- `atlassian.NewClient` from `internal/atlassian/client.go`: it only
rejects an empty base URL; the credentials are handed unchecked to
`auth.NewTransport` (which cannot fail), so construction succeeds whatever
the credentials are. The returned "client" is modelled by the credentials it
stores, the only state relevant to the claims. (`url.Parse` failures, which
need control characters in the URL, are not modelled.) -/
def atlassianNewClient (base : String) (c : ServiceCredentials) :
    Except String ServiceCredentials :=
  if base = "" then .error "atlassian: base URL required"
  else .ok c

theorem goTrimSpace_ne_empty {x : String} (h : goTrimSpace x ≠ "") : x ≠ "" := by
  intro h0
  apply h
  rw [h0]
  rfl

/-- C2: whenever oauthToken, email and apiToken are all non-empty after
trimming, both the auth transport's lazy initialization and the Jira SDK
client's credential switch select the bearer strategy, producing the header
`"Bearer " ++ oauthToken`, never basic auth. -/
theorem C2_credential_precedence (c : ServiceCredentials)
    (ho : goTrimSpace c.oauthToken ≠ "")
    (_he : goTrimSpace c.email ≠ "")
    (_ha : goTrimSpace c.apiToken ≠ "") :
    transportInitialize c = .ok ("Bearer " ++ c.oauthToken) ∧
    jiraSelectAuth c = .ok (.bearer c.oauthToken) := by
  constructor
  · unfold transportInitialize
    rw [if_pos (goTrimSpace_ne_empty ho)]
  · unfold jiraSelectAuth
    rw [if_pos ho]

/-- Witness for C2: resolving
`{email: "user@example.com", apiToken: "secret", oauthToken: "tok"}` yields
the header `"Bearer tok"`. -/
theorem C2_witness :
    transportInitialize ⟨"user@example.com", "secret", "tok"⟩ = .ok "Bearer tok" ∧
    jiraSelectAuth ⟨"user@example.com", "secret", "tok"⟩ = .ok (.bearer "tok") := by
  have h := C2_credential_precedence ⟨"user@example.com", "secret", "tok"⟩
    (by decide) (by decide) (by decide)
  exact h

/-- C9: with an empty oauthToken and non-empty email and apiToken, the auth
transport produces the basic strategy whose header value is `"Basic "`
followed by the standard base64 encoding of `email ++ ":" ++ apiToken`. -/
theorem C9_basic_auth_encoding (c : ServiceCredentials)
    (ho : c.oauthToken = "") (he : c.email ≠ "") (ha : c.apiToken ≠ "") :
    transportInitialize c = .ok ("Basic " ++ goBase64 (c.email ++ ":" ++ c.apiToken)) := by
  unfold transportInitialize
  rw [if_neg (by simp [ho]), if_pos ⟨he, ha⟩]

/-- Witness for C9: resolving `{email: "user@example.com", apiToken:
"secret"}` yields exactly `"Basic dXNlckBleGFtcGxlLmNvbTpzZWNyZXQ="`. -/
theorem C9_witness :
    transportInitialize ⟨"user@example.com", "secret", ""⟩
      = .ok "Basic dXNlckBleGFtcGxlLmNvbTpzZWNyZXQ=" := by
  rw [C9_basic_auth_encoding ⟨"user@example.com", "secret", ""⟩ rfl (by decide) (by decide)]
  rfl

/-- C3 counterexample: with entirely empty credentials, constructing the
authenticated gateway (`auth.NewTransport` wrapped by `atlassian.NewClient`)
SUCCEEDS — no InsufficientCredentials error is raised at construction time;
the error (`"auth: insufficient credentials"`) only appears when the lazy
`initialize` runs on the first outbound `RoundTrip`. -/
theorem C3_counterexample :
    atlassianNewClient "https://example.atlassian.net" ⟨"", "", ""⟩ = .ok ⟨"", "", ""⟩ ∧
    transportInitialize ⟨"", "", ""⟩ = .error "auth: insufficient credentials" :=
  ⟨rfl, rfl⟩

/-- C3 (amended): with insufficient credentials the `NewHTTPClient`
constructor and the Jira SDK client constructor do fail immediately at
construction, but the auth-transport-based gateway constructs successfully
and defers the `InsufficientCredentials` failure to the first outbound
request (and the transport checks the raw, untrimmed fields). -/
theorem C3_construction_failure_amended (base : String) (c : ServiceCredentials)
    (hb : base ≠ "")
    (ho : goTrimSpace c.oauthToken = "")
    (hba : goTrimSpace c.email = "" ∨ goTrimSpace c.apiToken = "") :
    newHTTPClient base c
      = .error "atlassian: credentials required (either oauth_token or email+api_token)" ∧
    jiraSelectAuth c = .error "jira: insufficient credentials for client" ∧
    atlassianNewClient base c = .ok c ∧
    (c.oauthToken = "" → c.email = "" ∨ c.apiToken = "" →
      transportInitialize c = .error "auth: insufficient credentials") := by
  have hnb : ¬(goTrimSpace c.oauthToken ≠ "" ∨
      (goTrimSpace c.email ≠ "" ∧ goTrimSpace c.apiToken ≠ "")) := by
    push_neg
    refine ⟨ho, ?_⟩
    intro hne
    rcases hba with h | h
    · exact absurd h hne
    · exact h
  refine ⟨?_, ?_, ?_, ?_⟩
  · unfold newHTTPClient
    rw [if_neg hb, if_neg hnb]
  · unfold jiraSelectAuth
    rw [if_neg (by simp [ho]), if_neg (by
      intro hc
      rcases hba with h | h
      · exact hc.1 h
      · exact hc.2 h)]
  · unfold atlassianNewClient
    rw [if_neg hb]
  · intro h1 h2
    unfold transportInitialize
    rw [if_neg (by simp [h1]), if_neg (by
      intro hc
      rcases h2 with h | h
      · exact hc.1 h
      · exact hc.2 h)]

/-- Witness for C3: the amended statement applied at empty credentials and a
concrete base URL. -/
theorem C3_witness :
    newHTTPClient "https://example.atlassian.net" ⟨"", "", ""⟩
      = .error "atlassian: credentials required (either oauth_token or email+api_token)" ∧
    jiraSelectAuth ⟨"", "", ""⟩ = .error "jira: insufficient credentials for client" ∧
    atlassianNewClient "https://example.atlassian.net" ⟨"", "", ""⟩ = .ok ⟨"", "", ""⟩ ∧
    transportInitialize ⟨"", "", ""⟩ = .error "auth: insufficient credentials" := by
  have h := C3_construction_failure_amended "https://example.atlassian.net" ⟨"", "", ""⟩
    (by decide) (by decide) (Or.inl (by decide))
  exact ⟨h.1, h.2.1, h.2.2.1, h.2.2.2 rfl (Or.inl rfl)⟩

/-! ## Session cache (`internal/state/state.go`, the `state` package)

Go slice aliasing is made explicit: a heap (`Store`) maps references to
backing arrays, a slice is `none` (nil) or a reference, and
`append([]jira.Project(nil), xs...)` — the defensive copy used by
`SetProjects` and `Projects` — returns nil for an empty source and otherwise
allocates a fresh backing array with the copied contents (`copySlice`).
Mutating a slice is modelled as overwriting its heap cell. -/

/-- `jira.Project` (`internal/jira/service.go`). -/
structure Project where
  id : String
  key : String
  name : String
deriving DecidableEq, Repr

structure Store (α : Type) where
  cells : List α
deriving Repr

def Store.read (h : Store α) (r : Nat) (dflt : α) : α := h.cells.getD r dflt

def Store.write (h : Store α) (r : Nat) (v : α) : Store α := ⟨h.cells.set r v⟩

def Store.alloc (h : Store α) (v : α) : Nat × Store α :=
  (h.cells.length, ⟨h.cells ++ [v]⟩)

abbrev ProjHeap := Store (List Project)

abbrev Slice := Option Nat

def readSlice (h : ProjHeap) (s : Slice) : List Project :=
  match s with
  | none => []
  | some r => h.read r []

def copySlice (h : ProjHeap) (s : Slice) : Slice × ProjHeap :=
  let xs := readSlice h s
  if xs = [] then (none, h)
  else
    let p := h.alloc xs
    (some p.1, p.2)

/-- `state.Cache` (mutex omitted: atomicity is outside this embedding). -/
structure Cache where
  jiraProjects : Slice
  lastJQL : String
deriving DecidableEq, Repr

/-- `state.NewCache`. -/
def newCache : Cache := ⟨none, ""⟩

/-- `Cache.SetProjects`: stores `append([]jira.Project(nil), projects...)`. -/
def setProjects (h : ProjHeap) (c : Cache) (p : Slice) : ProjHeap × Cache :=
  let r := copySlice h p
  (r.2, {c with jiraProjects := r.1})

/-- `Cache.Projects`: returns `append([]jira.Project(nil), c.jiraProjects...)`. -/
def getProjects (h : ProjHeap) (c : Cache) : ProjHeap × Slice :=
  let r := copySlice h c.jiraProjects
  (r.2, r.1)

-- helper getD lemmas
theorem getD_append_left (l l' : List α) (n : Nat) (d : α) (h : n < l.length) :
    (l ++ l').getD n d = l.getD n d := by
  simp only [List.getD, List.get?_eq_getElem?]
  rw [List.getElem?_append_left h]

theorem getD_append_length (l : List α) (x d : α) :
    (l ++ [x]).getD l.length d = x := by
  simp only [List.getD, List.get?_eq_getElem?]
  rw [List.getElem?_append_right (Nat.le_refl _)]
  simp

theorem getD_set_ne (l : List α) (r n : Nat) (v d : α) (h : r ≠ n) :
    (l.set r v).getD n d = l.getD n d := by
  simp only [List.getD, List.get?_eq_getElem?]
  rw [List.getElem?_set_ne h]

theorem copySlice_empty (h : ProjHeap) (p : Slice) (hxs : readSlice h p = []) :
    copySlice h p = (none, h) := by
  simp [copySlice, hxs]

theorem copySlice_nonempty (h : ProjHeap) (p : Slice) (hxs : readSlice h p ≠ []) :
    copySlice h p = (some h.cells.length, ⟨h.cells ++ [readSlice h p]⟩) := by
  simp [copySlice, hxs, Store.alloc]

theorem readSlice_some (h : ProjHeap) (r : Nat) :
    readSlice h (some r) = h.cells.getD r [] := rfl

/-- C1: after `SetProjects(P)` the cache holds a fresh copy of `P`'s backing
array, so overwriting the caller's array afterwards does not change what a
later `Projects()` returns; and `Projects()` itself hands out a freshly
allocated copy, so overwriting the returned array does not change the
internally stored sequence (nor later `Projects()` results). Slices are
modelled as optional references into a heap of backing arrays; `hp` says the
caller's slice is a valid reference. -/
theorem C1_cache_copy_isolation (h : ProjHeap) (c : Cache) (p : Slice)
    (hp : ∀ r, p = some r → r < h.cells.length) :
    (∀ r v, p = some r →
      readSlice ((setProjects h c p).1.write r v) (setProjects h c p).2.jiraProjects
        = readSlice (setProjects h c p).1 (setProjects h c p).2.jiraProjects) ∧
    (∀ q v, (getProjects (setProjects h c p).1 (setProjects h c p).2).2 = some q →
      readSlice ((getProjects (setProjects h c p).1 (setProjects h c p).2).1.write q v)
          (setProjects h c p).2.jiraProjects
        = readSlice (setProjects h c p).1 (setProjects h c p).2.jiraProjects) := by
  by_cases hxs : readSlice h p = []
  · have hcopy := copySlice_empty h p hxs
    constructor
    · intro r v hr
      simp [setProjects, hcopy, readSlice]
    · intro q v hq
      exfalso
      simp [getProjects, setProjects, hcopy, copySlice_empty, readSlice] at hq
  · have hcopy := copySlice_nonempty h p hxs
    have hset1 : (setProjects h c p).1 = ⟨h.cells ++ [readSlice h p]⟩ := by
      simp [setProjects, hcopy]
    have hset2 : (setProjects h c p).2.jiraProjects = some h.cells.length := by
      simp [setProjects, hcopy]
    constructor
    · intro r v hr
      have hrlt : r < h.cells.length := hp r hr
      rw [hset1, hset2, readSlice_some, readSlice_some]
      show ((h.cells ++ [readSlice h p]).set r v).getD h.cells.length [] = _
      rw [getD_set_ne _ _ _ _ _ (Nat.ne_of_lt hrlt)]
    · intro q v hq
      -- the copy stored in the cache is non-empty, so getProjects allocates a fresh cell
      have hread1 : readSlice (setProjects h c p).1 (setProjects h c p).2.jiraProjects
          = readSlice h p := by
        rw [hset1, hset2, readSlice_some]
        exact getD_append_length _ _ _
      have hcopy2 := copySlice_nonempty (setProjects h c p).1
        (setProjects h c p).2.jiraProjects (by rw [hread1]; exact hxs)
      have hq' : q = (setProjects h c p).1.cells.length := by
        simp [getProjects, hcopy2] at hq
        omega
      have hlen : (setProjects h c p).1.cells.length = h.cells.length + 1 := by
        rw [hset1]
        simp
      rw [hset2]
      have hget1 : (getProjects (setProjects h c p).1 (setProjects h c p).2).1
          = ⟨(setProjects h c p).1.cells ++
              [readSlice (setProjects h c p).1 (setProjects h c p).2.jiraProjects]⟩ := by
        simp [getProjects, hcopy2]
      rw [hget1, readSlice_some, readSlice_some]
      show ((((setProjects h c p).1.cells ++ [_]).set q v)).getD h.cells.length []
        = (setProjects h c p).1.cells.getD h.cells.length []
      rw [getD_set_ne _ _ _ _ _ (by omega)]
      exact getD_append_left _ _ _ _ (by omega)

/-- Witness for C1: the isolation theorem applied to a one-cell heap holding
one project. -/
theorem C1_witness :
    (∀ r, (some 0 : Slice) = some r → r < (Store.mk [[⟨"10000", "PROJ", "Demo"⟩]] : ProjHeap).cells.length) ∧
    (∀ r v, (some 0 : Slice) = some r →
      readSlice ((setProjects ⟨[[⟨"10000", "PROJ", "Demo"⟩]]⟩ newCache (some 0)).1.write r v)
          (setProjects ⟨[[⟨"10000", "PROJ", "Demo"⟩]]⟩ newCache (some 0)).2.jiraProjects
        = readSlice (setProjects ⟨[[⟨"10000", "PROJ", "Demo"⟩]]⟩ newCache (some 0)).1
            (setProjects ⟨[[⟨"10000", "PROJ", "Demo"⟩]]⟩ newCache (some 0)).2.jiraProjects) := by
  constructor
  · intro r hr
    cases hr
    decide
  · exact (C1_cache_copy_isolation ⟨[[⟨"10000", "PROJ", "Demo"⟩]]⟩ newCache (some 0)
      (by intro r hr; cases hr; decide)).1

/-! ## Auth transport round trip (`internal/auth/transport.go`)

`http.Request.Clone` deep-copies the header map; `Header.Set` then mutates
only the clone. Header maps live in a `Store` heap so that mutation and
aliasing are explicit: a request is a reference to its header list. -/

abbrev HeaderHeap := Store (List (String × String))

/-- An outbound `http.Request`, reduced to the reference to its header map
(the only state `RoundTrip` could mutate). -/
structure Request where
  headerRef : Nat
deriving DecidableEq, Repr

/-- `http.Header.Set`: replace any existing entries for the key. -/
def headerSet (l : List (String × String)) (k v : String) :
    List (String × String) :=
  (k, v) :: l.filter (fun e => e.1 ≠ k)

/-- The header-attaching part of `Transport.RoundTrip`: run the lazy
`initialize`; on success clone the request (allocating a fresh copy of its
header map) and set `Authorization` and `Accept` on the clone. The clone is
what gets forwarded to the base transport. -/
def roundTripPrep (h : HeaderHeap) (creds : ServiceCredentials) (req : Request) :
    Except String (HeaderHeap × Request) :=
  match transportInitialize creds with
  | .error e => .error e
  | .ok auth =>
    let contents := h.read req.headerRef []
    let a := h.alloc contents
    let h2 := a.2.write a.1
      (headerSet (headerSet contents "Authorization" auth) "Accept" "application/json")
    .ok (h2, ⟨a.1⟩)

/-- C10: `RoundTrip` never mutates the caller's request: whenever the
header-attaching step succeeds, the original request's header map is
unchanged in the resulting heap, and the forwarded request is a distinct
reference (the clone), not the caller's. -/
theorem C10_roundtrip_no_mutation (h : HeaderHeap) (creds : ServiceCredentials)
    (req : Request) (h' : HeaderHeap) (req' : Request)
    (hv : req.headerRef < h.cells.length)
    (hok : roundTripPrep h creds req = .ok (h', req')) :
    h'.read req.headerRef [] = h.read req.headerRef [] ∧
    req'.headerRef ≠ req.headerRef := by
  unfold roundTripPrep at hok
  cases hinit : transportInitialize creds with
  | error e => rw [hinit] at hok; exact absurd hok (by simp)
  | ok auth =>
    rw [hinit] at hok
    simp only [Except.ok.injEq, Prod.mk.injEq] at hok
    obtain ⟨hh, hr⟩ := hok
    constructor
    · rw [← hh]
      show (Store.write ⟨h.cells ++ [_]⟩ h.cells.length _).read req.headerRef []
        = h.read req.headerRef []
      unfold Store.write Store.read
      rw [getD_set_ne _ _ _ _ _ (Nat.ne_of_gt hv)]
      exact getD_append_left _ _ _ _ hv
    · rw [← hr]
      show h.cells.length ≠ req.headerRef
      exact Nat.ne_of_gt hv

/-- Witness for C10: a one-request heap with one pre-existing header; the
original header cell is untouched and the clone is a new reference. -/
theorem C10_witness :
    roundTripPrep ⟨[[("X-Test", "1")]]⟩ ⟨"", "", "tok"⟩ ⟨0⟩ = .ok
      (⟨[[("X-Test", "1")],
         [("Accept", "application/json"), ("Authorization", "Bearer tok"),
          ("X-Test", "1")]]⟩, ⟨1⟩) ∧
    ((⟨[[("X-Test", "1")],
        [("Accept", "application/json"), ("Authorization", "Bearer tok"),
         ("X-Test", "1")]]⟩ : HeaderHeap).read 0 []
        = (⟨[[("X-Test", "1")]]⟩ : HeaderHeap).read 0 [] ∧
      (⟨1⟩ : Request).headerRef ≠ (⟨0⟩ : Request).headerRef) :=
  ⟨rfl, C10_roundtrip_no_mutation ⟨[[("X-Test", "1")]]⟩ ⟨"", "", "tok"⟩ ⟨0⟩ _ _
    (by decide) rfl⟩

/-! ## Response decoding and error extraction (`internal/atlassian/client.go`,
`internal/atlassian/httpclient.go`)

`encoding/json` is modelled by a recursive-descent parser over the JSON
grammar fragment exercised by the code (strings with the common escapes,
integers, booleans, null, arrays, objects); `json.Unmarshal` into the
`Error` struct keeps the `message` field when it is a string, the elements of
an `errorMessages` array that are strings, and the string-valued entries of
an `errors` object, and leaves every field zero when the body is not a JSON
object — matching Go, which ignores unknown keys and leaves fields of a
non-matching body at their zero values (the unmarshal error is discarded by
`parseError`). `json.Decoder.Decode` reads the first JSON value of the body
and fails on an empty body (`io.EOF`). -/

inductive Json where
  | null
  | bool (b : Bool)
  | num (n : Int)
  | str (s : String)
  | arr (elems : List Json)
  | obj (members : List (String × Json))
deriving Repr

def skipWs : List Char → List Char
  | [] => []
  | c :: cs => if c = ' ' ∨ c = '\t' ∨ c = '\n' ∨ c = '\r' then skipWs cs else c :: cs

def parseStringBody : Nat → List Char → Option (List Char × List Char)
  | 0, _ => none
  | _ + 1, [] => none
  | fuel + 1, c :: cs =>
    if c = '"' then some ([], cs)
    else if c = '\\' then
      match cs with
      | [] => none
      | e :: cs' =>
        let dec : Option Char :=
          if e = '"' then some '"'
          else if e = '\\' then some '\\'
          else if e = '/' then some '/'
          else if e = 'n' then some '\n'
          else if e = 't' then some '\t'
          else if e = 'r' then some '\r'
          else none
        match dec with
        | none => none
        | some d => (parseStringBody fuel cs').map (fun p => (d :: p.1, p.2))
    else (parseStringBody fuel cs).map (fun p => (c :: p.1, p.2))

def digitsToNat (l : List Char) : Nat :=
  l.foldl (fun a c => a * 10 + (c.toNat - 48)) 0

def parseNumber (l : List Char) : Option (Json × List Char) :=
  let np := match l with
    | '-' :: t => (true, t)
    | _ => (false, l)
  let digits := np.2.takeWhile Char.isDigit
  let rest := np.2.dropWhile Char.isDigit
  if digits = [] then none
  else
    match rest with
    | '.' :: _ => none
    | 'e' :: _ => none
    | 'E' :: _ => none
    | _ => some (.num (if np.1 then -(digitsToNat digits : Int) else digitsToNat digits), rest)

mutual

def parseJsonVal : Nat → List Char → Option (Json × List Char)
  | 0, _ => none
  | fuel + 1, l =>
    match skipWs l with
    | [] => none
    | c :: cs =>
      if c = '"' then (parseStringBody (cs.length + 1) cs).map (fun p => (.str ⟨p.1⟩, p.2))
      else if c = '{' then
        match skipWs cs with
        | '}' :: rest => some (.obj [], rest)
        | other => (parseMembers fuel other).map (fun p => (.obj p.1, p.2))
      else if c = '[' then
        match skipWs cs with
        | ']' :: rest => some (.arr [], rest)
        | other => (parseElems fuel other).map (fun p => (.arr p.1, p.2))
      else if c = 't' then
        match cs with
        | 'r' :: 'u' :: 'e' :: rest => some (.bool true, rest)
        | _ => none
      else if c = 'f' then
        match cs with
        | 'a' :: 'l' :: 's' :: 'e' :: rest => some (.bool false, rest)
        | _ => none
      else if c = 'n' then
        match cs with
        | 'u' :: 'l' :: 'l' :: rest => some (.null, rest)
        | _ => none
      else parseNumber (c :: cs)

def parseMembers : Nat → List Char → Option (List (String × Json) × List Char)
  | 0, _ => none
  | fuel + 1, l =>
    match skipWs l with
    | '"' :: cs =>
      match parseStringBody (cs.length + 1) cs with
      | none => none
      | some (key, rest) =>
        match skipWs rest with
        | ':' :: rest2 =>
          match parseJsonVal fuel rest2 with
          | none => none
          | some (v, rest3) =>
            match skipWs rest3 with
            | ',' :: rest4 => (parseMembers fuel rest4).map (fun p => ((⟨key⟩, v) :: p.1, p.2))
            | '}' :: rest4 => some ([(⟨key⟩, v)], rest4)
            | _ => none
        | _ => none
    | _ => none

def parseElems : Nat → List Char → Option (List Json × List Char)
  | 0, _ => none
  | fuel + 1, l =>
    match parseJsonVal fuel l with
    | none => none
    | some (v, rest) =>
      match skipWs rest with
      | ',' :: rest2 => (parseElems fuel rest2).map (fun p => (v :: p.1, p.2))
      | ']' :: rest2 => some ([v], rest2)
      | _ => none

end

def jsonParse (s : String) : Option Json :=
  (parseJsonVal (s.data.length + 1) s.data).map (fun p => p.1)


def asStr : Json → Option String
  | .str s => some s
  | _ => none

structure DecodedErrBody where
  msg : String
  ems : List String
  errs : List (String × String)
deriving DecidableEq, Repr

def lookupKey (kvs : List (String × Json)) (k : String) : Option Json :=
  (kvs.find? (fun kv => kv.1 == k)).map (fun kv => kv.2)

/-- The effect of `json.Unmarshal(data, errRes)` on the three decoded fields
of `atlassian.Error`. -/
def decodeErrorBody (data : String) : DecodedErrBody :=
  match jsonParse data with
  | some (.obj kvs) =>
    { msg := match lookupKey kvs "message" with
        | some (.str s) => s
        | _ => ""
      ems := match lookupKey kvs "errorMessages" with
        | some (.arr xs) => xs.filterMap asStr
        | _ => []
      errs := match lookupKey kvs "errors" with
        | some (.obj es) => es.filterMap (fun kv => (asStr kv.2).map (fun v => (kv.1, v)))
        | _ => [] }
  | _ => ⟨"", [], []⟩

/-- `atlassian.Error` (`internal/atlassian/errors.go`): status code plus the
decoded body fields. -/
structure AtlError where
  statusCode : Nat
  message : String
  errorMessages : List String
  errors : List (String × String)
deriving DecidableEq, Repr

/-- `parseError` from `internal/atlassian/errors.go`: read the body, decode
it into the error struct (ignoring decode failures), and fall back to the
raw body text as the message ONLY when `Message`, `ErrorMessages` and
`Errors` are all empty. -/
def parseError (status : Nat) (data : String) : AtlError :=
  let d := if data.length > 0 then decodeErrorBody data else ⟨"", [], []⟩
  let e : AtlError := ⟨status, d.msg, d.ems, d.errs⟩
  if e.message = "" ∧ e.errorMessages = [] ∧ e.errors = [] then
    { e with message := data }
  else e

theorem parseError_eq (status : Nat) (data : String) (h : 0 < data.length) :
    parseError status data =
      (if (decodeErrorBody data).msg = "" ∧ (decodeErrorBody data).ems = []
          ∧ (decodeErrorBody data).errs = [] then
        ⟨status, data, (decodeErrorBody data).ems, (decodeErrorBody data).errs⟩
      else
        ⟨status, (decodeErrorBody data).msg, (decodeErrorBody data).ems,
          (decodeErrorBody data).errs⟩) := by
  unfold parseError
  rw [if_pos h]

/-- C7 (amended): the error carries the response status unchanged, and its
message is the JSON body's `message` field if non-empty, else the raw body
text — but only when the `errorMessages` array AND the `errors` map are both
empty; a body containing only a non-empty `errors` map yields an empty
message (the raw-body fallback is suppressed), contrary to the unqualified
claim (see `C7_counterexample`). The decoded `errorMessages` are carried
verbatim (their first element is what `Error()` renders when `message` is
empty). -/
theorem C7_amended (status : Nat) (data : String) :
    (parseError status data).statusCode = status ∧
    (parseError status data).message =
      (if (decodeErrorBody data).msg ≠ "" then (decodeErrorBody data).msg
       else if (decodeErrorBody data).ems = [] ∧ (decodeErrorBody data).errs = [] then data
       else "") ∧
    (parseError status data).errorMessages = (decodeErrorBody data).ems := by
  by_cases hd : data = ""
  · subst hd
    exact ⟨rfl, rfl, rfl⟩
  · have hlen : 0 < data.length := by
      have : data.data ≠ [] := by
        intro h0
        exact hd (String.ext h0)
      show 0 < data.data.length
      exact List.length_pos.mpr this
    rw [parseError_eq status data hlen]
    by_cases hc : (decodeErrorBody data).msg = "" ∧ (decodeErrorBody data).ems = []
        ∧ (decodeErrorBody data).errs = []
    · rw [if_pos hc]
      refine ⟨rfl, ?_, rfl⟩
      rw [if_neg (by simp [hc.1]), if_pos ⟨hc.2.1, hc.2.2⟩]
    · rw [if_neg hc]
      refine ⟨rfl, ?_, rfl⟩
      by_cases hm : (decodeErrorBody data).msg = ""
      · have hne : ¬((decodeErrorBody data).ems = [] ∧ (decodeErrorBody data).errs = []) := by
          intro h2
          exact hc ⟨hm, h2.1, h2.2⟩
        rw [if_neg (by simp [hm]), if_neg hne, hm]
      · rw [if_pos hm]

/-- The failure modes of the gateway call: a non-2xx remote response, a JSON
decode failure (`"atlassian: decode response: ..."`), or the plain
`"HTTP %d: %s"` error of the `HTTPClient` helpers. -/
inductive DoError where
  | remote (e : AtlError)
  | decode
  | httpStatus (status : Nat) (body : String)

/-- `Client.Do` from `internal/atlassian/client.go`, as a function of the
received response: non-2xx statuses become `parseError` results; with no
output requested the body is drained unparsed; otherwise the body is JSON
decoded — with NO special case for 204. -/
def clientDo (outRequested : Bool) (status : Nat) (body : String) :
    Except DoError (Option Json) :=
  if status < 200 ∨ 300 ≤ status then .error (.remote (parseError status body))
  else if outRequested = false then .ok none
  else
    match jsonParse body with
    | some v => .ok (some v)
    | none => .error .decode

/-- `HTTPClient.Put` from `internal/atlassian/httpclient.go`: statuses ≥ 400
fail; the body is decoded only when a result is requested AND the status is
not 204 (`http.StatusNoContent`). -/
def httpPut (resultRequested : Bool) (status : Nat) (body : String) :
    Except DoError (Option Json) :=
  if 400 ≤ status then .error (.httpStatus status body)
  else if resultRequested ∧ status ≠ 204 then
    match jsonParse body with
    | some v => .ok (some v)
    | none => .error .decode
  else .ok none

/-- C8 counterexample: a 204 response with an empty body DOES produce a
decode error from `Client.Do` when the caller requested a decoded shape —
`Do` has no no-content special case, so `json.Decode` runs and fails with
`io.EOF` on the empty body. -/
theorem C8_counterexample :
    clientDo true 204 "" = .error .decode := rfl

/-- C8 (amended): a 204 response is never parsed when the caller expects no
payload (`Client.Do` with `out == nil` drains and succeeds), and
`HTTPClient.Put` skips JSON decoding for a 204 status even when a result
shape was requested; but `Client.Do` (and the Get/Post helpers) do attempt
to parse a 204 body when a shape is requested (see `C8_counterexample`). -/
theorem C8_amended (body : String) :
    clientDo false 204 body = .ok none ∧ httpPut true 204 body = .ok none := by
  constructor
  · unfold clientDo
    rw [if_neg (by omega), if_pos rfl]
  · unfold httpPut
    rw [if_neg (by omega), if_neg (by simp)]

/-- C7 counterexample: a 404-class response whose body is
`{"errors":{"field":"bad"}}` (no `message`, no `errorMessages`) produces an
error whose message is EMPTY — not the raw body text the claim requires —
because the non-empty `errors` map suppresses the raw-body fallback. -/
theorem C7_counterexample :
    parseError 400 "\x7b\"errors\":\x7b\"field\":\"bad\"\x7d\x7d"
      = ⟨400, "", [], [("field", "bad")]⟩ ∧
    ("" : String) ≠ "\x7b\"errors\":\x7b\"field\":\"bad\"\x7d\x7d" :=
  ⟨by decide, by decide⟩

/-- Witness for C7: the amended selection rule instantiated at the claim's
concrete example — status 404, body `{"message":"Issue does not exist"}` —
yields status 404 and message `"Issue does not exist"`. -/
theorem C7_witness :
    (parseError 404 "\x7b\"message\":\"Issue does not exist\"\x7d").statusCode = 404 ∧
    (parseError 404 "\x7b\"message\":\"Issue does not exist\"\x7d").message
      = "Issue does not exist" := by
  have h := C7_amended 404 "\x7b\"message\":\"Issue does not exist\"\x7d"
  refine ⟨h.1, ?_⟩
  rw [h.2.1]
  decide
